import Mathlib

/-!
Shallow embedding of `src/app.py` (web3_privacy_matrix): a CLI that holds a
fixed catalog of three "privacy stack" records and renders them as a table,
CSV, or JSON, optionally scored and sorted.

Modelling conventions:
* Python values appearing in rows are strings, ints, or floats.  Every float
  in this program is a composite score, i.e. `round(x, 2)`, an exact multiple
  of 0.01 whenever the five ratings are integers; a float is therefore
  represented by its value in hundredths (`cents : ℤ`).  `str()` of such a
  float (Python's shortest round-tripping representation) is the plain
  decimal numeral, which `pyStrFloat` reproduces.
* Python dicts preserve insertion order; a `Row` is an association list.
* Python's `sorted` is a stable sort; it is modelled by `List.insertionSort`,
  which is stable with the same tie behaviour (earlier elements first, also
  under `reverse=True`).
-/

/-- A cell value of a row: a Python string, int, or float.  A float is stored
as its value in hundredths of a unit (all floats in this program are scores
rounded to 2 decimal places). -/
inductive Value where
  | str (s : String)
  | int (n : ℤ)
  | float (cents : ℤ)
deriving DecidableEq

/-- A Python dict used as a row: an insertion-ordered association list from
field name to value (keys are unique in every row this program builds). -/
abbrev Row := List (String × Value)

/-- The `PrivacyStack` dataclass of `src/app.py` (lines 8-18).  The five
ratings are documented as integers in 1..10. -/
structure PrivacyStack where
  key : String
  name : String
  family : String
  description : String
  privacy_level : ℤ
  soundness_focus : ℤ
  performance_cost : ℤ
  dev_complexity : ℤ
  ecosystem_maturity : ℤ
deriving DecidableEq

instance : Inhabited PrivacyStack :=
  ⟨⟨"", "", "", "", 0, 0, 0, 0, 0⟩⟩

/-- The `aztec` catalog entry (`src/app.py` lines 22-32). -/
def aztecStack : PrivacyStack where
  key := "aztec"
  name := "Aztec-style zk Rollup"
  family := "zk-SNARK privacy L2"
  description := "Encrypted L2 state and zero-knowledge proofs over Ethereum."
  privacy_level := 9
  soundness_focus := 8
  performance_cost := 7
  dev_complexity := 8
  ecosystem_maturity := 7

/-- The `zama` catalog entry (`src/app.py` lines 33-43). -/
def zamaStack : PrivacyStack where
  key := "zama"
  name := "Zama-style FHE Compute"
  family := "FHE + Web3"
  description := "Fully homomorphic encryption over on-chain or off-chain data."
  privacy_level := 8
  soundness_focus := 9
  performance_cost := 9
  dev_complexity := 9
  ecosystem_maturity := 5

/-- The `soundness` catalog entry (`src/app.py` lines 44-54). -/
def soundnessStack : PrivacyStack where
  key := "soundness"
  name := "Soundness-first Lab"
  family := "Formal verification"
  description := "Specification-driven, proof-oriented engineering for Web3 protocols."
  privacy_level := 6
  soundness_focus := 10
  performance_cost := 6
  dev_complexity := 7
  ecosystem_maturity := 8

/-- The `STACKS` dict (`src/app.py` lines 21-55), as an insertion-ordered
association list. -/
def STACKS : List (String × PrivacyStack) :=
  [("aztec", aztecStack), ("zama", zamaStack), ("soundness", soundnessStack)]

/-- Dict indexing `STACKS[k]`, made total with `Option` (Python raises
`KeyError` when the key is absent; the CLI only ever passes catalog keys). -/
def stacksGet (k : String) : Option PrivacyStack :=
  STACKS.lookup k

/-- `FIELDS_ORDER` (`src/app.py` lines 58-67): the eight base columns. -/
def FIELDS_ORDER : List String :=
  ["key", "name", "family", "privacy_level", "soundness_focus",
   "performance_cost", "dev_complexity", "ecosystem_maturity"]

/-- `list_keys` (`src/app.py` lines 70-71). -/
def list_keys : List String :=
  STACKS.map Prod.fst

/-- `to_dict` (`src/app.py` lines 74-75): `dataclasses.asdict`, which emits
all nine dataclass fields in declaration order, `description` included. -/
def to_dict (s : PrivacyStack) : Row :=
  [("key", .str s.key),
   ("name", .str s.name),
   ("family", .str s.family),
   ("description", .str s.description),
   ("privacy_level", .int s.privacy_level),
   ("soundness_focus", .int s.soundness_focus),
   ("performance_cost", .int s.performance_cost),
   ("dev_complexity", .int s.dev_complexity),
   ("ecosystem_maturity", .int s.ecosystem_maturity)]

/-- The key list of `to_dict`, i.e. `asdict` field order. -/
def DATACLASS_FIELDS : List String :=
  ["key", "name", "family", "description", "privacy_level", "soundness_focus",
   "performance_cost", "dev_complexity", "ecosystem_maturity"]

/-- `score_stack` (`src/app.py` lines 78-82), in hundredths: the source
computes `benefit = 0.45*privacy_level + 0.40*soundness_focus`,
`penalty = 0.10*performance_cost + 0.05*dev_complexity` and returns
`round(benefit - penalty, 2)`.  For integer ratings the exact value of
`benefit - penalty` is the integer `45*pl + 40*sf - 10*pc - 5*dc` hundredths,
so rounding to two decimals is the identity; the score is represented by that
integer number of hundredths (see `score_stack_eq_spec` for the proof that
this equals the spec's rounded real-valued formula). -/
def score_stack (s : PrivacyStack) : ℤ :=
  let benefit := 45 * s.privacy_level + 40 * s.soundness_focus
  let penalty := 10 * s.performance_cost + 5 * s.dev_complexity
  benefit - penalty

/-- Rounding a rational to two decimal places, `round(q, 2)`.  Mathlib's
`round` rounds halves up while Python rounds halves to even, but the two
agree whenever `q * 100` is an integer, which is the case for every score of
this program. -/
def roundTo2 (q : ℚ) : ℚ :=
  ((round (q * 100) : ℤ) : ℚ) / 100

/-- Modelled from the spec formula (spec 4.2), written with real-number
arithmetic: `round(0.45*privacy_level + 0.40*soundness_focus
- (0.10*performance_cost + 0.05*dev_complexity), 2)`.  Used to state that
`score_stack` refines this formula. -/
def score_spec (s : PrivacyStack) : ℚ :=
  let benefit : ℚ := 45 / 100 * (s.privacy_level : ℚ) + 40 / 100 * (s.soundness_focus : ℚ)
  let penalty : ℚ := 10 / 100 * (s.performance_cost : ℚ) + 5 / 100 * (s.dev_complexity : ℚ)
  roundTo2 (benefit - penalty)

/-- `build_rows` (`src/app.py` lines 85-92): one row per selected stack, in
order; the dict starts as `asdict(stack)` and, when `include_score` is set,
gains a trailing `composite_score` entry. -/
def build_rows (selected : List PrivacyStack) (include_score : Bool) : List Row :=
  selected.map fun s =>
    to_dict s ++ if include_score then [("composite_score", .float (score_stack s))] else []

/-- Dict lookup with default, `row.get(h, d)`. -/
def rget (r : Row) (h : String) (d : Value) : Value :=
  match r.lookup h with
  | some v => v
  | none => d

/-- Dict assignment `r[k] = v`: overwrite in place when the key exists,
otherwise append at the end (Python insertion order). -/
def dinsert (r : Row) (k : String) (v : Value) : Row :=
  if (r.lookup k).isSome then
    r.map fun p => if p.1 = k then (k, v) else p
  else r ++ [(k, v)]

/-- Python `str()` of a float stored in hundredths: the decimal numeral with
the fractional part trimmed of a trailing zero but never empty
(`6.15`, `6.2`, `6.0`, `0.05`, `-0.65`). -/
def pyStrFloat (c : ℤ) : String :=
  (if c < 0 then "-" else "") ++
    (let a := c.natAbs
     let whole := a / 100
     let cents := a % 100
     toString whole ++ "." ++
       (if cents % 10 = 0 then toString (cents / 10)
        else if cents < 10 then "0" ++ toString cents
        else toString cents))

/-- Python `str()` of a cell value. -/
def pyStr : Value → String
  | .str s => s
  | .int n => toString n
  | .float c => pyStrFloat c

/-- Python `s.upper()` for the ASCII header labels. -/
def pyUpper (s : String) : String :=
  ⟨s.data.map Char.toUpper⟩

/-- Python `s.ljust(w)`: pad with spaces on the right up to width `w`. -/
def pyLjust (s : String) (w : Nat) : String :=
  s ++ ⟨List.replicate (w - s.length) ' '⟩

/-- Python `sep.join(parts)`. -/
def joinSep (sep : String) : List String → String
  | [] => ""
  | [x] => x
  | x :: y :: t => x ++ sep ++ joinSep sep (y :: t)

/-- The header list used by the table and CSV renderers
(`src/app.py` lines 96-98 and 124-126): `FIELDS_ORDER`, plus
`composite_score` when the score is included. -/
def headersFor (include_score : Bool) : List String :=
  FIELDS_ORDER ++ if include_score then ["composite_score"] else []

/-- Column width computation of `format_table` (`src/app.py` lines 101-107):
start from `len(h)` and fold in `len(str(row.get(h, "")))` over the rows. -/
def col_width (rows : List Row) (h : String) : Nat :=
  rows.foldl (fun w r => max w (pyStr (rget r h (.str ""))).length) h.length

/-- `format_table` (`src/app.py` lines 95-120). -/
def format_table (rows : List Row) (include_score : Bool) : String :=
  let headers := headersFor include_score
  let header_line := joinSep "  " (headers.map fun h => pyLjust (pyUpper h) (col_width rows h))
  let separator := joinSep "  " (headers.map fun h => (⟨List.replicate (col_width rows h) '-'⟩ : String))
  let body := rows.map fun r =>
    joinSep "  " (headers.map fun h => pyLjust (pyStr (rget r h (.str ""))) (col_width rows h))
  joinSep "\n" (header_line :: separator :: body)

/-- Character-level form of `s.replace('"', '""')` for the one-character
pattern used by the CSV escaper: double every double-quote. -/
def escChars : List Char → List Char
  | [] => []
  | c :: cs => if c = '"' then '"' :: '"' :: escChars cs else c :: escChars cs

/-- The quoting condition of the CSV escaper
(`any(c in s for c in [",", chr(34), newline])`). -/
def needsQuoting (s : String) : Bool :=
  s.data.any fun c => c = ',' || c = '"' || c = '\n'

/-- The `esc` helper of `format_csv` (`src/app.py` lines 128-132): quote the
stringified value and double internal quotes when it contains a comma, a
double quote, or a newline; otherwise return it unchanged. -/
def esc (v : Value) : String :=
  let s := pyStr v
  if needsQuoting s then
    ⟨'"' :: (escChars s.data ++ ['"'])⟩
  else s

/-- `format_csv` (`src/app.py` lines 123-137). -/
def format_csv (rows : List Row) (include_score : Bool) : String :=
  let headers := headersFor include_score
  joinSep "\n"
    (joinSep "," headers ::
      rows.map fun r => joinSep "," (headers.map fun h => esc (rget r h (.str ""))))

/-- Lexicographic comparison of Python strings by code point (`a <= b`). -/
def charListLe : List Char → List Char → Bool
  | [], _ => true
  | _ :: _, [] => false
  | a :: as, b :: bs =>
    if a.toNat < b.toNat then true
    else if b.toNat < a.toNat then false
    else charListLe as bs

/-- The numeric content of a value, in hundredths (ints and floats compare
numerically in Python). -/
def numCents : Value → ℤ
  | .str _ => 0
  | .int n => 100 * n
  | .float c => c

/-- Kind rank used to totalise comparison: numbers before strings. -/
def kindRank : Value → Nat
  | .str _ => 1
  | .int _ => 0
  | .float _ => 0

/-- Python `<=` on cell values: numbers compare numerically, strings compare
lexicographically by code point.  A comparison between a number and a string
raises `TypeError` in Python; it is unreachable through the CLI (every sort
key column is homogeneous) and is modelled arbitrarily as numbers-before-
strings so that the relation is total. -/
def vleB (a b : Value) : Bool :=
  if kindRank a = kindRank b then
    if kindRank a = 1 then
      charListLe (pyStr a).data (pyStr b).data
    else
      decide (numCents a ≤ numCents b)
  else decide (kindRank a < kindRank b)

/-- The sort key of a row for field `f`: `row.get(f, 0)`
(`src/app.py` line 188; a missing field compares as the int `0`). -/
def sortKeyOf (f : String) (r : Row) : Value :=
  rget r f (.int 0)

/-- Row comparison used by the ascending sort: `key(a) <= key(b)`. -/
def rowLe (f : String) (a b : Row) : Prop :=
  vleB (sortKeyOf f a) (sortKeyOf f b) = true

/-- Row comparison used by the descending sort (`reverse=True` sorts as if
every comparison were reversed while staying stable). -/
def rowGe (f : String) (a b : Row) : Prop :=
  vleB (sortKeyOf f b) (sortKeyOf f a) = true

instance (f : String) : DecidableRel (rowLe f) := fun _ _ =>
  inferInstanceAs (Decidable (_ = true))

instance (f : String) : DecidableRel (rowGe f) := fun _ _ =>
  inferInstanceAs (Decidable (_ = true))

/-- `sort_rows` (`src/app.py` lines 185-188).  `if not sort_by` is Python
truthiness: both `None` and the empty string leave the rows unchanged.
`sorted` is a stable sort, modelled by insertion sort; `reverse=True` sorts
descending, still keeping equal keys in their original relative order. -/
def sort_rows (rows : List Row) (sort_by : Option String) (descending : Bool) : List Row :=
  match sort_by with
  | none => rows
  | some f =>
    if f = "" then rows
    else if descending then
      List.insertionSort (rowGe f) rows
    else
      List.insertionSort (rowLe f) rows

/-- `select_stacks` (`src/app.py` lines 179-182): all catalog values in
declaration order for `"all"`, otherwise the dict entry (the CLI restricts
the argument to catalog keys, so the missing-key `KeyError` path is
modelled as the empty selection). -/
def select_stacks (k : String) : List PrivacyStack :=
  if k = "all" then STACKS.map Prod.snd
  else
    match stacksGet k with
    | some s => [s]
    | none => []

/-- JSON string escaping as done by `json.dumps` for the characters that can
occur in this program's data (backslash, double quote, newline, tab,
carriage return; all catalog strings are printable ASCII). -/
def jsonEscChars : List Char → List Char
  | [] => []
  | c :: cs =>
    (if c = '"' then ['\\', '"']
     else if c = '\\' then ['\\', '\\']
     else if c = '\n' then ['\\', 'n']
     else if c = '\t' then ['\\', 't']
     else if c = '\r' then ['\\', 'r']
     else [c]) ++ jsonEscChars cs

/-- JSON serialisation of one cell value. -/
def jsonValue : Value → String
  | .str s => "\"" ++ (⟨jsonEscChars s.data⟩ : String) ++ "\""
  | .int n => toString n
  | .float c => pyStrFloat c

/-- The key-sorted item list of a row, as produced by
`json.dumps(..., sort_keys=True)`: keys ordered lexicographically by code
point. -/
def pySortKeys (r : Row) : Row :=
  List.insertionSort (fun a b => charListLe a.1.data b.1.data = true) r

/-- The key list of the JSON object emitted for a row. -/
def jsonObjKeys (r : Row) : List String :=
  (pySortKeys r).map Prod.fst

/-- One row as a JSON object at array-element depth under
`json.dumps(rows, indent=2, sort_keys=True)`: keys sorted, one
`"key": value` pair per line at four spaces of indentation, braces at the
element's own indentation. -/
def jsonObj (r : Row) : String :=
  match pySortKeys r with
  | [] => "\x7b\x7d"
  | items =>
    "\x7b\n" ++
      joinSep ",\n"
        (items.map fun p => "    " ++ jsonValue (.str p.1) ++ ": " ++ jsonValue p.2) ++
      "\n  \x7d"

/-- `json.dumps(rows, indent=2, sort_keys=True)` (`src/app.py` line 205) for
a list of flat objects: elements at two spaces of indentation, separated by
`,\n`; the empty list prints as `[]`. -/
def jsonDumps (rows : List Row) : String :=
  match rows with
  | [] => "[]"
  | _ => "[\n" ++ joinSep ",\n" (rows.map fun r => "  " ++ jsonObj r) ++ "\n]"

/-- The `--format` choice. -/
inductive Format where
  | table
  | csv
  | json
deriving DecidableEq

/-- The transient score insertion of `main` (`src/app.py` lines 197-200):
`r["composite_score"] = score_stack(STACKS[r["key"]])`.  The `KeyError`
paths are unreachable for rows built by this program (every row has a
catalog `key`); they are modelled as leaving the row unchanged. -/
def addTransientScore (r : Row) : Row :=
  match stacksGet (pyStr (rget r "key" (.str ""))) with
  | some s => dinsert r "composite_score" (.float (score_stack s))
  | none => r

/-- The row list of `main` (`src/app.py` lines 193-202) after selection,
row building, transient score insertion, and sorting. -/
def mainSortedRows (stackArg : String) (include_score : Bool)
    (sort_by : Option String) (descending : Bool) : List Row :=
  let sel := select_stacks stackArg
  let rows := build_rows sel include_score
  let rows :=
    if sort_by = some "composite_score" ∧ include_score = false then
      rows.map addTransientScore
    else rows
  sort_rows rows sort_by descending

/-- The string `main` (`src/app.py` lines 191-209) prints (without the final
newline added by `print`) for one invocation of the CLI. -/
def mainOutput (stackArg : String) (fmt : Format) (include_score : Bool)
    (sort_by : Option String) (descending : Bool) : String :=
  let rows := mainSortedRows stackArg include_score sort_by descending
  match fmt with
  | .json => jsonDumps rows
  | .csv => format_csv rows (include_score || decide (sort_by = some "composite_score"))
  | .table => format_table rows (include_score || decide (sort_by = some "composite_score"))

/-- Modelled from the spec (4.5, Table renderer): the column width as the
spec words it, the maximum of the uppercased header label's length and the
lengths of the column's stringified row values.  Compared against the
source's `col_width` in the table theorem. -/
def width_spec (rows : List Row) (h : String) : Nat :=
  max (pyUpper h).length
    ((rows.map fun r => (pyStr (rget r h (.str ""))).length).foldr max 0)

/-- A row restricted to the fields a renderer may show: used to state that
the table and CSV renderers read nothing else (in particular never the
`description` field). -/
def restrictRow (include_score : Bool) (r : Row) : Row :=
  r.filter fun p => decide (p.1 ∈ headersFor include_score)

/-- The spec's rounded real-valued score formula evaluates to exactly the
integer number of hundredths computed by `score_stack`: for integer ratings
the argument of `round(., 2)` is an exact multiple of 0.01, so the rounding
convention is irrelevant. -/
theorem score_stack_eq_spec (s : PrivacyStack) :
    score_spec s = (score_stack s : ℚ) / 100 := by
  unfold score_spec roundTo2 score_stack
  have h : (45 / 100 * (s.privacy_level : ℚ) + 40 / 100 * (s.soundness_focus : ℚ) -
      (10 / 100 * (s.performance_cost : ℚ) + 5 / 100 * (s.dev_complexity : ℚ))) * 100 =
      ((45 * s.privacy_level + 40 * s.soundness_focus -
        (10 * s.performance_cost + 5 * s.dev_complexity) : ℤ) : ℚ) := by
    push_cast
    ring
  simp only [h, round_intCast]

theorem charListLe_refl (a : List Char) : charListLe a a = true := by
  induction a with
  | nil => rfl
  | cons c cs ih => simp [charListLe, ih]

theorem charListLe_total (a b : List Char) :
    charListLe a b = true ∨ charListLe b a = true := by
  induction a generalizing b with
  | nil => exact Or.inl rfl
  | cons c cs ih =>
    cases b with
    | nil => exact Or.inr rfl
    | cons d ds =>
      rcases Nat.lt_trichotomy c.toNat d.toNat with h | h | h
      · exact Or.inl (by simp [charListLe, h])
      · rcases ih ds with h2 | h2
        · exact Or.inl (by simp [charListLe, h, h2])
        · exact Or.inr (by simp [charListLe, h, h2])
      · exact Or.inr (by simp [charListLe, h])

theorem charListLe_trans {a b c : List Char}
    (hab : charListLe a b = true) (hbc : charListLe b c = true) :
    charListLe a c = true := by
  induction a generalizing b c with
  | nil => rfl
  | cons x xs ih =>
    cases b with
    | nil => simp [charListLe] at hab
    | cons y ys =>
      cases c with
      | nil => simp [charListLe] at hbc
      | cons z zs =>
        simp only [charListLe] at hab hbc ⊢
        rcases Nat.lt_trichotomy x.toNat y.toNat with h1 | h1 | h1
        · rcases Nat.lt_trichotomy y.toNat z.toNat with h2 | h2 | h2
          · rw [if_pos (Nat.lt_trans h1 h2)]
          · rw [if_pos (by omega : x.toNat < z.toNat)]
          · rw [if_neg (by omega : ¬ y.toNat < z.toNat), if_pos h2] at hbc
            simp at hbc
        · rw [if_neg (by omega : ¬ x.toNat < y.toNat),
            if_neg (by omega : ¬ y.toNat < x.toNat)] at hab
          rcases Nat.lt_trichotomy y.toNat z.toNat with h2 | h2 | h2
          · rw [if_pos (by omega : x.toNat < z.toNat)]
          · rw [if_neg (by omega : ¬ y.toNat < z.toNat),
              if_neg (by omega : ¬ z.toNat < y.toNat)] at hbc
            rw [if_neg (by omega : ¬ x.toNat < z.toNat),
              if_neg (by omega : ¬ z.toNat < x.toNat)]
            exact ih hab hbc
          · rw [if_neg (by omega : ¬ y.toNat < z.toNat), if_pos h2] at hbc
            simp at hbc
        · rw [if_neg (by omega : ¬ x.toNat < y.toNat), if_pos h1] at hab
          simp at hab

theorem vleB_refl (a : Value) : vleB a a = true := by
  unfold vleB
  rw [if_pos rfl]
  by_cases h : kindRank a = 1
  · rw [if_pos h]
    exact charListLe_refl _
  · rw [if_neg h]
    simp

theorem vleB_total (a b : Value) : vleB a b = true ∨ vleB b a = true := by
  unfold vleB
  by_cases h : kindRank a = kindRank b
  · rw [if_pos h, if_pos h.symm]
    by_cases h1 : kindRank a = 1
    · rw [if_pos h1, if_pos (h ▸ h1)]
      exact charListLe_total _ _
    · rw [if_neg h1, if_neg (fun hb => h1 (h.trans hb))]
      simp only [decide_eq_true_eq]
      omega
  · rw [if_neg h, if_neg (fun hb => h hb.symm)]
    simp only [decide_eq_true_eq]
    omega

theorem vleB_trans {a b c : Value} (hab : vleB a b = true) (hbc : vleB b c = true) :
    vleB a c = true := by
  unfold vleB at hab hbc ⊢
  by_cases h1 : kindRank a = kindRank b
  · rw [if_pos h1] at hab
    by_cases h2 : kindRank b = kindRank c
    · rw [if_pos h2] at hbc
      rw [if_pos (h1.trans h2)]
      by_cases h3 : kindRank a = 1
      · rw [if_pos h3] at hab ⊢
        rw [if_pos (h1.symm.trans h3)] at hbc
        exact charListLe_trans hab hbc
      · rw [if_neg h3] at hab ⊢
        rw [if_neg (by omega : ¬ kindRank b = 1)] at hbc
        simp only [decide_eq_true_eq] at hab hbc ⊢
        omega
    · rw [if_neg h2] at hbc
      simp only [decide_eq_true_eq] at hbc
      rw [if_neg (by omega : ¬ kindRank a = kindRank c)]
      simp only [decide_eq_true_eq]
      omega
  · rw [if_neg h1] at hab
    simp only [decide_eq_true_eq] at hab
    by_cases h2 : kindRank b = kindRank c
    · rw [if_neg (by omega : ¬ kindRank a = kindRank c)]
      simp only [decide_eq_true_eq]
      omega
    · rw [if_neg h2] at hbc
      simp only [decide_eq_true_eq] at hbc
      rw [if_neg (by omega : ¬ kindRank a = kindRank c)]
      simp only [decide_eq_true_eq]
      omega

instance (f : String) : IsTotal Row (rowLe f) :=
  ⟨fun a b => by unfold rowLe; exact vleB_total (sortKeyOf f a) (sortKeyOf f b)⟩

instance (f : String) : IsTrans Row (rowLe f) :=
  ⟨fun _ _ _ hab hbc => by unfold rowLe at hab hbc ⊢; exact vleB_trans hab hbc⟩

instance (f : String) : IsTotal Row (rowGe f) :=
  ⟨fun a b => by unfold rowGe; exact vleB_total (sortKeyOf f b) (sortKeyOf f a)⟩

instance (f : String) : IsTrans Row (rowGe f) :=
  ⟨fun _ _ _ hab hbc => by unfold rowGe at hab hbc ⊢; exact vleB_trans hbc hab⟩

theorem length_pyUpper (s : String) : (pyUpper s).length = s.length := by
  show (s.data.map Char.toUpper).length = s.data.length
  exact List.length_map _ _

theorem foldl_max_eq (l : List ℕ) (a : ℕ) :
    l.foldl max a = max a (l.foldr max 0) := by
  induction l generalizing a with
  | nil => simp
  | cons x t ih =>
    simp only [List.foldl_cons, List.foldr_cons, ih (max a x)]
    omega

/-- The source's column width computation agrees with the spec's phrasing of
it (maximum of the uppercased label's length and the value lengths). -/
theorem col_width_eq_width_spec (rows : List Row) (h : String) :
    col_width rows h = width_spec rows h := by
  unfold col_width width_spec
  rw [length_pyUpper]
  rw [show rows.foldl (fun w r => max w (pyStr (rget r h (.str ""))).length) h.length =
      (rows.map fun r => (pyStr (rget r h (.str ""))).length).foldl max h.length by
    rw [List.foldl_map]]
  exact foldl_max_eq _ _

theorem lookup_filter (q : String × Value → Bool) (h : String)
    (hq : ∀ v, q (h, v) = true) :
    ∀ r : Row, (r.filter q).lookup h = r.lookup h
  | [] => rfl
  | (k, v) :: t => by
    by_cases he : h = k
    · subst he
      rw [List.filter_cons_of_pos (hq v)]
      simp [List.lookup]
    · have hb : (h == k) = false := beq_eq_false_iff_ne.mpr he
      by_cases hk : q (k, v) = true
      · rw [List.filter_cons_of_pos hk]
        simp [List.lookup, hb, lookup_filter q h hq t]
      · rw [List.filter_cons_of_neg hk, lookup_filter q h hq t]
        simp [List.lookup, hb]

theorem rget_restrict (include_score : Bool) (r : Row) (h : String)
    (hh : h ∈ headersFor include_score) (d : Value) :
    rget (restrictRow include_score r) h d = rget r h d := by
  unfold rget restrictRow
  rw [lookup_filter (fun p => decide (p.1 ∈ headersFor include_score)) h
    (fun v => by simpa using hh) r]

theorem escChars_count (cs : List Char) :
    (escChars cs).count '"' = 2 * cs.count '"' := by
  induction cs with
  | nil => rfl
  | cons c t ih =>
    by_cases h : c = '"'
    · subst h
      simp [escChars, List.count_cons, ih]
      omega
    · simp [escChars, h, List.count_cons, ih]

theorem escChars_filter (cs : List Char) :
    (escChars cs).filter (fun c => !(c == '"')) = cs.filter (fun c => !(c == '"')) := by
  induction cs with
  | nil => rfl
  | cons c t ih =>
    by_cases h : c = '"'
    · subst h
      simp [escChars, ih]
    · simp [escChars, h, ih]

/-- The catalog invariant behind the transient score of `main`: looking a
row's `key` back up in `STACKS` and appending the stack's score produces
exactly the row `build_rows` would have built with the score included. -/
theorem transient_eq (stackArg : String) (hstack : stackArg ∈ list_keys ++ ["all"]) :
    (build_rows (select_stacks stackArg) false).map addTransientScore =
      build_rows (select_stacks stackArg) true := by
  fin_cases hstack <;> decide

/-- Keys of the JSON object emitted for any row are sorted lexicographically
by code point (`sort_keys=True`). -/
theorem jsonKeys_sorted (r : Row) :
    (jsonObjKeys r).Pairwise (fun a b => charListLe a.data b.data = true) := by
  unfold jsonObjKeys pySortKeys
  haveI : IsTotal (String × Value) (fun a b => charListLe a.1.data b.1.data = true) :=
    ⟨fun a b => charListLe_total _ _⟩
  haveI : IsTrans (String × Value) (fun a b => charListLe a.1.data b.1.data = true) :=
    ⟨fun _ _ _ hab hbc => charListLe_trans hab hbc⟩
  have hs := List.sorted_insertionSort
    (fun a b : String × Value => charListLe a.1.data b.1.data = true) r
  exact List.Pairwise.map Prod.fst (fun _ _ hab => hab) hs

/-- C1 counterexample: the claim asserts the zama catalog entry scores 6.25,
but `score_stack` on zama (privacy 8, soundness 9, cost 9, complexity 9)
yields 0.45*8 + 0.40*9 - (0.10*9 + 0.05*9) = 5.85: 585 hundredths, and the
spec formula itself evaluates to 117/20 = 5.85, not 625/100 = 6.25. -/
theorem c1_counterexample :
    score_stack zamaStack = 585 ∧
    score_spec zamaStack = 117 / 20 ∧
    ¬ score_spec zamaStack = 625 / 100 := by
  have h : score_stack zamaStack = 585 := by decide
  refine ⟨h, ?_, ?_⟩
  · rw [score_stack_eq_spec, h]
    norm_num
  · rw [score_stack_eq_spec, h]
    norm_num

/-- C1 (amended): for every PrivacyStack whose five numeric fields are
integers in [1,10], `score_stack` returns
round(0.45*privacy_level + 0.40*soundness_focus
- (0.10*performance_cost + 0.05*dev_complexity), 2) — an exact number of
hundredths, so no rounding error occurs; for the three catalog entries the
results are 6.15 for aztec, 5.85 for zama, and 5.75 for soundness, and
`ecosystem_maturity` does not influence the result. -/
theorem c1_score (s : PrivacyStack)
    (hp : 1 ≤ s.privacy_level ∧ s.privacy_level ≤ 10)
    (hs : 1 ≤ s.soundness_focus ∧ s.soundness_focus ≤ 10)
    (hc : 1 ≤ s.performance_cost ∧ s.performance_cost ≤ 10)
    (hd : 1 ≤ s.dev_complexity ∧ s.dev_complexity ≤ 10)
    (he : 1 ≤ s.ecosystem_maturity ∧ s.ecosystem_maturity ≤ 10) :
    score_spec s = (score_stack s : ℚ) / 100 ∧
    (score_stack s : ℚ) =
      45 * (s.privacy_level : ℚ) + 40 * (s.soundness_focus : ℚ) -
        (10 * (s.performance_cost : ℚ) + 5 * (s.dev_complexity : ℚ)) ∧
    score_stack aztecStack = 615 ∧
    score_stack zamaStack = 585 ∧
    score_stack soundnessStack = 575 ∧
    ∀ m : ℤ, score_stack { s with ecosystem_maturity := m } = score_stack s := by
  refine ⟨score_stack_eq_spec s, ?_, by decide, by decide, by decide, fun m => rfl⟩
  unfold score_stack
  push_cast
  ring

/-- Witness for `c1_score` at the aztec entry. -/
theorem c1_score_witness :
    (1 ≤ aztecStack.privacy_level ∧ aztecStack.privacy_level ≤ 10) ∧
    score_spec aztecStack = (score_stack aztecStack : ℚ) / 100 ∧
    score_stack aztecStack = 615 :=
  ⟨by decide,
   (c1_score aztecStack (by decide) (by decide) (by decide) (by decide) (by decide)).1,
   (c1_score aztecStack (by decide) (by decide) (by decide) (by decide) (by decide)).2.2.1⟩

/-- C2 counterexample: the single row built for aztec without a score has
nine keys, the eight base fields plus `description` (inherited from
`dataclasses.asdict`), so it does not contain exactly the 8 base fields. -/
theorem c2_counterexample :
    ((build_rows (select_stacks "aztec") false).map fun r => r.map Prod.fst) =
      [DATACLASS_FIELDS] ∧
    "description" ∈ DATACLASS_FIELDS ∧
    ¬ "description" ∈ FIELDS_ORDER ∧
    DATACLASS_FIELDS.length = 9 := by
  decide

/-- C2 (amended): `build_rows` yields one row per input stack, in input
order; with includeScore=false each row contains exactly the nine dataclass
fields in declaration order (the 8 base fields plus `description` after
`family`) and no `composite_score` key; with includeScore=true each row
additionally ends with a tenth `composite_score` field equal to
`score_stack` of that stack. -/
theorem c2_rows (sel : List PrivacyStack) (i : Nat) (hi : i < sel.length) :
    (build_rows sel false).length = sel.length ∧
    (build_rows sel true).length = sel.length ∧
    ((build_rows sel false).getD i []).map Prod.fst = DATACLASS_FIELDS ∧
    ((build_rows sel false).getD i []).lookup "composite_score" = none ∧
    ((build_rows sel true).getD i []).map Prod.fst =
      DATACLASS_FIELDS ++ ["composite_score"] ∧
    ((build_rows sel true).getD i []).lookup "composite_score" =
      some (.float (score_stack (sel.getD i default))) := by
  have hrow : ∀ b : Bool, (build_rows sel b).getD i [] =
      to_dict (sel.getD i default) ++
        (if b then [("composite_score", Value.float (score_stack (sel.getD i default)))]
         else []) := by
    intro b
    unfold build_rows
    rw [List.getD_eq_getElem?_getD, List.getElem?_map, List.getElem?_eq_getElem hi,
      Option.map_some', Option.getD_some,
      List.getD_eq_getElem?_getD, List.getElem?_eq_getElem hi, Option.getD_some]
  refine ⟨by simp [build_rows], by simp [build_rows], ?_, ?_, ?_, ?_⟩
  · rw [hrow false]
    rfl
  · rw [hrow false]
    rfl
  · rw [hrow true]
    rfl
  · rw [hrow true]
    rfl

/-- Witness for `c2_rows` on the one-stack list `[aztecStack]`. -/
theorem c2_rows_witness :
    (0 < [aztecStack].length) ∧
    ((build_rows [aztecStack] false).getD 0 []).map Prod.fst = DATACLASS_FIELDS :=
  ⟨by decide, (c2_rows [aztecStack] 0 (by decide)).2.2.1⟩

/-- C4: sort_rows with no sortBy returns the row list unchanged, in order. -/
theorem c4_sort_none (rows : List Row) (descending : Bool) :
    sort_rows rows none descending = rows :=
  rfl

/-- C5 counterexample: `sort_rows` treats a present but empty field name
like an absent one (`if not sort_by` is Python truthiness), so with rows
keyed by the field named "" it returns them unchanged instead of performing
the claimed stable ascending sort. -/
theorem c5_counterexample :
    sort_rows [[("", Value.int 5)], [("", Value.int 3)]] (some "") false =
      [[("", Value.int 5)], [("", Value.int 3)]] ∧
    ¬ List.Pairwise (rowLe "")
        (sort_rows [[("", Value.int 5)], [("", Value.int 3)]] (some "") false) := by
  decide

/-- C5 (amended): for every row list and every present non-empty sortBy
field name, with rows whose sort keys are mutually comparable (all numeric
or all strings; mixing kinds raises TypeError in Python), `sort_rows`
performs a stable sort keyed by `row.get(sortBy, 0)`: the result is a
permutation of the input, it is ordered ascending when descending is false
and descending when descending is true, and rows with equal keys keep their
original relative order. -/
theorem c5_sort (rows : List Row) (f : String) (descending : Bool)
    (hf : ¬ f = "")
    (hkeys : (∀ r ∈ rows, kindRank (sortKeyOf f r) = 0) ∨
             (∀ r ∈ rows, kindRank (sortKeyOf f r) = 1)) :
    (sort_rows rows (some f) descending).Perm rows ∧
    (sort_rows rows (some f) false).Pairwise (rowLe f) ∧
    (sort_rows rows (some f) true).Pairwise (rowGe f) ∧
    (∀ a b : Row, sortKeyOf f a = sortKeyOf f b → [a, b].Sublist rows →
      [a, b].Sublist (sort_rows rows (some f) descending)) := by
  have hs : sort_rows rows (some f) descending =
      if descending then List.insertionSort (rowGe f) rows
      else List.insertionSort (rowLe f) rows := by
    simp only [sort_rows]
    rw [if_neg hf]
  refine ⟨?_, ?_, ?_, ?_⟩
  · rw [hs]
    cases descending
    · simpa using List.perm_insertionSort (rowLe f) rows
    · simpa using List.perm_insertionSort (rowGe f) rows
  · have h0 : sort_rows rows (some f) false = List.insertionSort (rowLe f) rows := by
      simp only [sort_rows]
      rw [if_neg hf]
      simp
    rw [h0]
    exact List.sorted_insertionSort (rowLe f) rows
  · have h1 : sort_rows rows (some f) true = List.insertionSort (rowGe f) rows := by
      simp only [sort_rows]
      rw [if_neg hf]
      simp
    rw [h1]
    exact List.sorted_insertionSort (rowGe f) rows
  · intro a b hk hsub
    rw [hs]
    cases descending
    · simp only [if_neg Bool.false_ne_true]
      exact List.pair_sublist_insertionSort
        (show rowLe f a b by unfold rowLe; rw [hk]; exact vleB_refl _) hsub
    · simp only [if_pos rfl]
      exact List.pair_sublist_insertionSort
        (show rowGe f a b by unfold rowGe; rw [hk]; exact vleB_refl _) hsub

/-- Witness for `c5_sort`: three rows sorted by `privacy_level`, two of
them tied with equal keys. -/
theorem c5_sort_witness :
    (¬ "privacy_level" = "") ∧
    (sort_rows
        [[("privacy_level", Value.int 5), ("name", Value.str "a")],
         [("privacy_level", Value.int 5), ("name", Value.str "b")],
         [("privacy_level", Value.int 3)]] (some "privacy_level") false).Perm
      [[("privacy_level", Value.int 5), ("name", Value.str "a")],
       [("privacy_level", Value.int 5), ("name", Value.str "b")],
       [("privacy_level", Value.int 3)]] :=
  ⟨by decide,
   (c5_sort
      [[("privacy_level", Value.int 5), ("name", Value.str "a")],
       [("privacy_level", Value.int 5), ("name", Value.str "b")],
       [("privacy_level", Value.int 3)]] "privacy_level" false (by decide)
      (Or.inl (by decide))).1⟩

/-- C6: the CSV escaper leaves a stringified value without comma, double
quote, or newline unchanged; otherwise it wraps it in double quotes with
every internal double quote doubled (the quote count doubles plus the two
wrapping quotes, all other characters are preserved in order), as in the
example `He said "hi", ok`. -/
theorem c6_esc (v : Value) :
    (needsQuoting (pyStr v) = false → esc v = pyStr v) ∧
    (needsQuoting (pyStr v) = true →
      (esc v).data = '"' :: (escChars (pyStr v).data ++ ['"']) ∧
      (esc v).data.count '"' = 2 * (pyStr v).data.count '"' + 2 ∧
      (esc v).data.filter (fun c => !(c == '"')) =
        (pyStr v).data.filter (fun c => !(c == '"'))) ∧
    esc (.str "He said \"hi\", ok") = "\"He said \"\"hi\"\", ok\"" := by
  refine ⟨?_, ?_, by decide⟩
  · intro h
    simp [esc, h]
  · intro h
    have he : esc v = ⟨'"' :: (escChars (pyStr v).data ++ ['"'])⟩ := by
      simp [esc, h]
    refine ⟨by rw [he], ?_, ?_⟩
    · rw [he]
      show ('"' :: (escChars (pyStr v).data ++ ['"'])).count '"' = _
      simp [List.count_cons, List.count_append, escChars_count]
    · rw [he]
      show List.filter _ ('"' :: (escChars (pyStr v).data ++ ['"'])) = _
      simp [List.filter_append, escChars_filter]

/-- Witness for `c6_esc` at the documented example value. -/
theorem c6_esc_witness :
    needsQuoting (pyStr (Value.str "He said \"hi\", ok")) = true ∧
    (esc (Value.str "He said \"hi\", ok")).data.count '"' =
      2 * (pyStr (Value.str "He said \"hi\", ok")).data.count '"' + 2 :=
  ⟨by decide, ((c6_esc (Value.str "He said \"hi\", ok")).2.1 (by decide)).2.1⟩

/-- C9: the table and CSV renderers consume exactly the columns of
`FIELDS_ORDER`, plus `composite_score` when the flag is set, and nothing
else: restricting every row to those fields leaves both outputs unchanged,
and `description` is never among the rendered columns. -/
theorem c9_columns (rows : List Row) (include_score : Bool) :
    format_table rows include_score =
      format_table (rows.map (restrictRow include_score)) include_score ∧
    format_csv rows include_score =
      format_csv (rows.map (restrictRow include_score)) include_score ∧
    ¬ "description" ∈ headersFor include_score ∧
    headersFor include_score =
      FIELDS_ORDER ++ (if include_score then ["composite_score"] else []) := by
  have hw : ∀ h ∈ headersFor include_score,
      col_width (rows.map (restrictRow include_score)) h = col_width rows h := by
    intro h hh
    unfold col_width
    rw [List.foldl_map]
    have hfun : (fun (w : ℕ) r =>
        max w (pyStr (rget (restrictRow include_score r) h (.str ""))).length) =
        fun (w : ℕ) r => max w (pyStr (rget r h (.str ""))).length := by
      funext w r
      rw [rget_restrict include_score r h hh]
    rw [hfun]
  refine ⟨?_, ?_, ?_, rfl⟩
  · simp only [format_table]
    have h1 : (headersFor include_score).map
        (fun h => pyLjust (pyUpper h) (col_width (rows.map (restrictRow include_score)) h)) =
        (headersFor include_score).map
          (fun h => pyLjust (pyUpper h) (col_width rows h)) :=
      List.map_congr_left fun h hh => by rw [hw h hh]
    have h2 : (headersFor include_score).map
        (fun h => ((⟨List.replicate (col_width (rows.map (restrictRow include_score)) h) '-'⟩ : String))) =
        (headersFor include_score).map
          (fun h => ((⟨List.replicate (col_width rows h) '-'⟩ : String))) :=
      List.map_congr_left fun h hh => by rw [hw h hh]
    have h3 : (rows.map (restrictRow include_score)).map
        (fun r => joinSep "  " ((headersFor include_score).map
          (fun h => pyLjust (pyStr (rget r h (.str "")))
            (col_width (rows.map (restrictRow include_score)) h)))) =
        rows.map (fun r => joinSep "  " ((headersFor include_score).map
          (fun h => pyLjust (pyStr (rget r h (.str ""))) (col_width rows h)))) := by
      rw [List.map_map]
      refine List.map_congr_left fun r _ => ?_
      show joinSep "  " _ = joinSep "  " _
      refine congrArg _ (List.map_congr_left fun h hh => ?_)
      rw [rget_restrict include_score r h hh, hw h hh]
    rw [h1, h2, h3]
  · simp only [format_csv]
    have h3 : (rows.map (restrictRow include_score)).map
        (fun r => joinSep "," ((headersFor include_score).map
          (fun h => esc (rget r h (.str ""))))) =
        rows.map (fun r => joinSep "," ((headersFor include_score).map
          (fun h => esc (rget r h (.str ""))))) := by
      rw [List.map_map]
      refine List.map_congr_left fun r _ => ?_
      show joinSep "," _ = joinSep "," _
      refine congrArg _ (List.map_congr_left fun h hh => ?_)
      rw [rget_restrict include_score r h hh]
    rw [h3]
  · cases include_score <;> decide

set_option maxRecDepth 100000 in
/-- C8: the table renderer pads each value to the column width, which is the
maximum of the uppercased header label's length and the lengths of the
column's stringified values; it emits the uppercased header line, a dash
separator line sized per column, and one line per row, all columns joined by
two spaces; the invocation `--stack aztec --format table` prints exactly 3
lines with 8 columns and no score column. -/
theorem c8_table (rows : List Row) (include_score : Bool) :
    (format_table rows include_score =
      joinSep "\n"
        ((joinSep "  " ((headersFor include_score).map fun h =>
            pyLjust (pyUpper h) (width_spec rows h))) ::
         (joinSep "  " ((headersFor include_score).map fun h =>
            ((⟨List.replicate (width_spec rows h) '-'⟩ : String)))) ::
         rows.map fun r => joinSep "  " ((headersFor include_score).map fun h =>
            pyLjust (pyStr (rget r h (.str ""))) (width_spec rows h)))) ∧
    mainOutput "aztec" .table false none false =
      "KEY    NAME                   FAMILY               PRIVACY_LEVEL  SOUNDNESS_FOCUS  PERFORMANCE_COST  DEV_COMPLEXITY  ECOSYSTEM_MATURITY\n-----  ---------------------  -------------------  -------------  ---------------  ----------------  --------------  ------------------\naztec  Aztec-style zk Rollup  zk-SNARK privacy L2  9              8                7                 8               7                 " ∧
    (mainOutput "aztec" .table false none false).data.count '\n' = 2 ∧
    (headersFor false).length = 8 ∧
    ¬ "composite_score" ∈ headersFor false := by
  refine ⟨?_, by decide, by decide, by decide, by decide⟩
  simp only [format_table, col_width_eq_width_spec]

/-- C7: for every valid CLI option combination, the table and CSV renderers
are invoked with the score column exactly when includeScore is set or sortBy
is composite_score, and when sorting by composite_score without
--include-score the scores are computed into the rows transiently, so the
sorted rows are the same as if the score had been included. -/
theorem c7_score_column (stackArg : String) (fmt : Format) (include_score : Bool)
    (sort_by : Option String) (descending : Bool)
    (hstack : stackArg ∈ list_keys ++ ["all"]) :
    (fmt = .csv → mainOutput stackArg fmt include_score sort_by descending =
      format_csv (mainSortedRows stackArg include_score sort_by descending)
        (include_score || decide (sort_by = some "composite_score"))) ∧
    (fmt = .table → mainOutput stackArg fmt include_score sort_by descending =
      format_table (mainSortedRows stackArg include_score sort_by descending)
        (include_score || decide (sort_by = some "composite_score"))) ∧
    ("composite_score" ∈
        headersFor (include_score || decide (sort_by = some "composite_score")) ↔
      (include_score = true ∨ sort_by = some "composite_score")) ∧
    (sort_by = some "composite_score" → include_score = false →
      mainSortedRows stackArg include_score sort_by descending =
        sort_rows (build_rows (select_stacks stackArg) true) sort_by descending) := by
  refine ⟨fun h => by subst h; rfl, fun h => by subst h; rfl, ?_, ?_⟩
  · cases include_score
    · by_cases hsb : sort_by = some "composite_score"
      · simp [hsb, headersFor, FIELDS_ORDER]
      · simp [hsb, headersFor, FIELDS_ORDER]
    · simp [headersFor, FIELDS_ORDER]
  · intro hsb hinc
    subst hsb
    subst hinc
    have hm : mainSortedRows stackArg false (some "composite_score") descending =
        sort_rows ((build_rows (select_stacks stackArg) false).map addTransientScore)
          (some "composite_score") descending := by
      simp [mainSortedRows]
    rw [hm, transient_eq stackArg hstack]

/-- Witness for `c7_score_column` at `--stack all --format csv --sort-by
composite_score` without `--include-score`. -/
theorem c7_score_column_witness :
    ("all" ∈ list_keys ++ ["all"]) ∧
    ("composite_score" ∈
        headersFor (false || decide ((some "composite_score" : Option String) =
          some "composite_score")) ↔
      (false = true ∨ (some "composite_score" : Option String) = some "composite_score")) ∧
    mainSortedRows "all" false (some "composite_score") false =
      sort_rows (build_rows (select_stacks "all") true) (some "composite_score") false :=
  ⟨by decide,
   (c7_score_column "all" .csv false (some "composite_score") false (by decide)).2.2.1,
   (c7_score_column "all" .csv false (some "composite_score") false (by decide)).2.2.2
     rfl rfl⟩

/-- C10: every catalog record's `key` field equals the dict key it is stored
under, and consequently attaching the transient score
`score_stack(STACKS[row["key"]])` to each scoreless row of a selection
produces exactly the rows `build_rows` makes with includeScore=true. -/
theorem c10_catalog (stackArg : String) (hstack : stackArg ∈ list_keys ++ ["all"]) :
    (STACKS.map fun p => p.2.key) = STACKS.map Prod.fst ∧
    (build_rows (select_stacks stackArg) false).map addTransientScore =
      build_rows (select_stacks stackArg) true :=
  ⟨by decide, transient_eq stackArg hstack⟩

/-- Witness for `c10_catalog` at the aztec selection. -/
theorem c10_catalog_witness :
    ("aztec" ∈ list_keys ++ ["all"]) ∧
    (build_rows (select_stacks "aztec") false).map addTransientScore =
      build_rows (select_stacks "aztec") true :=
  ⟨by decide, (c10_catalog "aztec" (by decide)).2⟩

set_option maxRecDepth 100000 in
/-- C3 counterexample: under `--stack all --format json --include-score`
every serialized object has 10 keys (the nine `asdict` fields plus
`composite_score`), not 9 as claimed. -/
theorem c3_counterexample :
    ((mainSortedRows "all" true none false).map fun r => (jsonObjKeys r).length) =
      [10, 10, 10] ∧
    ¬ (∀ n ∈ (mainSortedRows "all" true none false).map
        (fun r => (jsonObjKeys r).length), n = 9) := by
  decide

set_option maxRecDepth 100000 in
/-- C3 (amended): the JSON output serializes the post-sort row list as an
array of objects with 2-space indentation and alphabetically sorted keys, in
row order; for `--stack all --format json --include-score` the output is an
array of exactly 3 objects each with exactly 10 keys. -/
theorem c3_json :
    (∀ r : Row, (jsonObjKeys r).Pairwise fun a b => charListLe a.data b.data = true) ∧
    (∀ rows : List Row, ¬ rows = [] →
      jsonDumps rows =
        "[\n" ++ joinSep ",\n" (rows.map fun r => "  " ++ jsonObj r) ++ "\n]") ∧
    mainOutput "all" .json true none false =
      "[\n  \x7b\n    \"composite_score\": 6.15,\n    \"description\": \"Encrypted L2 state and zero-knowledge proofs over Ethereum.\",\n    \"dev_complexity\": 8,\n    \"ecosystem_maturity\": 7,\n    \"family\": \"zk-SNARK privacy L2\",\n    \"key\": \"aztec\",\n    \"name\": \"Aztec-style zk Rollup\",\n    \"performance_cost\": 7,\n    \"privacy_level\": 9,\n    \"soundness_focus\": 8\n  \x7d,\n  \x7b\n    \"composite_score\": 5.85,\n    \"description\": \"Fully homomorphic encryption over on-chain or off-chain data.\",\n    \"dev_complexity\": 9,\n    \"ecosystem_maturity\": 5,\n    \"family\": \"FHE + Web3\",\n    \"key\": \"zama\",\n    \"name\": \"Zama-style FHE Compute\",\n    \"performance_cost\": 9,\n    \"privacy_level\": 8,\n    \"soundness_focus\": 9\n  \x7d,\n  \x7b\n    \"composite_score\": 5.75,\n    \"description\": \"Specification-driven, proof-oriented engineering for Web3 protocols.\",\n    \"dev_complexity\": 7,\n    \"ecosystem_maturity\": 8,\n    \"family\": \"Formal verification\",\n    \"key\": \"soundness\",\n    \"name\": \"Soundness-first Lab\",\n    \"performance_cost\": 6,\n    \"privacy_level\": 6,\n    \"soundness_focus\": 10\n  \x7d\n]" ∧
    ((mainSortedRows "all" true none false).map fun r => (jsonObjKeys r).length) =
      [10, 10, 10] := by
  refine ⟨jsonKeys_sorted, ?_, by decide, by decide⟩
  intro rows hne
  cases rows with
  | nil => exact absurd rfl hne
  | cons r t => rfl

/-- Witness for `c3_json` on a one-row list. -/
theorem c3_json_witness :
    ¬ ([[("a", Value.int 1)]] : List Row) = [] ∧
    jsonDumps [[("a", Value.int 1)]] =
      "[\n" ++ joinSep ",\n" (([[("a", Value.int 1)]] : List Row).map
        fun r => "  " ++ jsonObj r) ++ "\n]" :=
  ⟨by decide, c3_json.2.1 [[("a", Value.int 1)]] (by decide)⟩
